import Mathlib

/-!
Verification of the `hono_sessions` session library: the byte-bounded cookie
chunking codec, the cookie storage driver (`CookieStore`) and the keyed
backend storage driver (`CloudflareKVStore`), embedded shallowly from the
TypeScript sources and checked against the specification.

Strings are modelled by Lean `String` (a list of Unicode scalar values),
matching JavaScript `for (const char of input)` iteration which walks code
points and never splits surrogate pairs.
-/

/-- UTF-8 byte length of a character sequence, as measured by
`new TextEncoder().encode(char).length` summed over the characters. -/
def utf8Len (l : List Char) : Nat :=
  (l.map Char.utf8Size).sum

/-- The UTF-8 encoding of one Unicode scalar value as a byte list. -/
def charUtf8Encode (c : Char) : List Nat :=
  let n := c.toNat
  if n < 0x80 then
    [n]
  else if n < 0x800 then
    [0xC0 ||| (n >>> 6), 0x80 ||| (n &&& 0x3F)]
  else if n < 0x10000 then
    [0xE0 ||| (n >>> 12), 0x80 ||| ((n >>> 6) &&& 0x3F), 0x80 ||| (n &&& 0x3F)]
  else
    [0xF0 ||| (n >>> 18), 0x80 ||| ((n >>> 12) &&& 0x3F),
     0x80 ||| ((n >>> 6) &&& 0x3F), 0x80 ||| (n &&& 0x3F)]

/-- UTF-8 byte sequence of a character list. -/
def utf8Bytes (l : List Char) : List Nat :=
  (l.map charUtf8Encode).flatten

/-- Loop body of `chunkStringByBytes` (src/store/CookieStore.ts, lines 13-36):
walks the remaining input one character at a time, carrying the current chunk
and its accumulated byte count; when adding the next character's UTF-8 byte
length would exceed `maxBytes` the current chunk is pushed (even if empty,
exactly as the source does) and a new chunk starts with that character.  At
the end the current chunk is pushed only if non-empty (`if (current)`). -/
def chunkLoop (maxBytes : Nat) : List Char → List Char → Nat → List (List Char)
  | [], current, _ =>
    if current = [] then [] else [current]
  | c :: rest, current, currentBytes =>
    if maxBytes < currentBytes + c.utf8Size then
      current :: chunkLoop maxBytes rest [c] c.utf8Size
    else
      chunkLoop maxBytes rest (current ++ [c]) (currentBytes + c.utf8Size)

/-- `chunkStringByBytes(input, maxBytes)` from src/store/CookieStore.ts:
splits `input` into chunks whose UTF-8 byte length stays within `maxBytes`,
never splitting a single character across chunks. -/
def chunkStringByBytes (input : String) (maxBytes : Nat) : List String :=
  (chunkLoop maxBytes input.data [] 0).map (fun l => String.mk l)

/-- `getCookieName(name, index)` from src/store/CookieStore.ts. -/
def getCookieName (name : String) (index : Nat) : String :=
  if index = 0 then name else name ++ "_" ++ toString index

-- § Session data model (src/Session.ts)

/-- The persisted session record. The key-value bag is opaque to the store
drivers and is modelled by an abstract payload field; `_expire` is modelled
as the epoch-millisecond value of a set expiry timestamp (`null` = `none`),
`_accessed` as the ISO string written by the stores. -/
structure SessionData where
  _data : String
  _expire : Option Int
  _delete : Bool
  _accessed : Option String
  deriving DecidableEq

/-- JavaScript truthiness of a nullable string: `null`/`undefined` and the
empty string are falsy. -/
def strTruthy : Option String → Bool
  | none => false
  | some s => s != ""

-- § Cookie options and writes (hono setCookie surface)

/-- The cookie attributes relevant to this model: `maxAge` (overridden to 0
by clearing writes) and a representative preserved attribute standing for
the rest of the configured options spread by `{...this.cookieOptions}`. -/
structure CookieOpts where
  maxAge : Option Int
  path : Option String
  deriving DecidableEq

/-- One `setCookie(c, name, value, options)` call. -/
structure CookieWrite where
  name : String
  value : String
  opts : CookieOpts
  deriving DecidableEq

-- § JavaScript parseInt(s, 10) (used by CookieStore.getSession)

namespace CookieStore

/-- The `CookieStore` instance state set up by its constructor. -/
structure Config where
  encryptionKey : Option String
  cookieOptions : CookieOpts
  sessionCookieName : String

/-- `CookieStore.persistSessionData` (lines 114-152), applied to the already
serialized-and-possibly-encrypted payload string. The result is the ordered
list of `setCookie` calls performed, paired with the raised error if any:
first the cleanup writes clearing chunk cookies 0-9 (with `maxAge: 0`) and
the count cookie, then — depending on the chunk count — the single data
cookie, nothing but an oversized-session error, the indexed data cookies
plus the count cookie, or nothing at all for an empty payload. -/
def persistSessionData (cfg : Config) (payload : String) :
    List CookieWrite × Option String :=
  let splitPayload := chunkStringByBytes payload 4000
  let cleanup : List CookieWrite :=
    ((List.range 10).map (fun i =>
      ⟨getCookieName cfg.sessionCookieName i, "",
        { cfg.cookieOptions with maxAge := some 0 }⟩))
    ++ [⟨cfg.sessionCookieName ++ "_count", "", cfg.cookieOptions⟩]
  if splitPayload.length = 1 then
    (cleanup ++ [⟨cfg.sessionCookieName, splitPayload.getD 0 "", cfg.cookieOptions⟩], none)
  else if splitPayload.length > 10 then
    (cleanup, some "Session too large for cookie storage")
  else if splitPayload.length > 1 then
    (cleanup
      ++ (splitPayload.enum.map (fun p =>
            ⟨getCookieName cfg.sessionCookieName p.1, p.2, cfg.cookieOptions⟩))
      ++ [⟨cfg.sessionCookieName ++ "_count", toString splitPayload.length,
            cfg.cookieOptions⟩], none)
  else
    (cleanup, none)

/-- `CookieStore.deleteSession` (lines 104-112): clears chunk cookies 0-9
with `maxAge: 0`, then sets the count cookie to the empty value with the
plain configured cookie options. -/
def deleteSession (cfg : Config) : List CookieWrite :=
  ((List.range 10).map (fun i =>
    ⟨getCookieName cfg.sessionCookieName i, "",
      { cfg.cookieOptions with maxAge := some 0 }⟩))
  ++ [⟨cfg.sessionCookieName ++ "_count", "", cfg.cookieOptions⟩]

end CookieStore

-- § Keyed backend storage driver (src/store/CloudflareKVStore.ts)

namespace CloudflareKVStore

/-- A KV namespace's contents, keyed by string (values are the JSON records,
read back with `{ type: "json" }`). -/
def KVMap : Type := String → Option SessionData

/-- The ambient hono request context: a map from binding names to the KV
namespaces available in the request's environment. -/
structure HonoContext where
  env : String → Option KVMap

/-- Instance state set up by the `CloudflareKVStore` constructor
(`options.kv`, `options.expirationTtl || 86400`, `options.prefix ||
"session:"`). -/
structure Config where
  kvName : String
  expirationTtl : Int
  prefixStr : String

/-- The constructor: a falsy (absent or zero) `expirationTtl` option becomes
86400 seconds, a falsy (absent or empty) prefix option becomes `"session:"`. -/
def mkConfig (kvOpt : String) (ttlOpt : Option Int) (prefixOpt : Option String) : Config :=
  { kvName := kvOpt
  , expirationTtl :=
      match ttlOpt with
      | none => 86400
      | some t => if t = 0 then 86400 else t
  , prefixStr :=
      match prefixOpt with
      | none => "session:"
      | some p => if p = "" then "session:" else p }

/-- The private `kv` getter (lines 50-61): resolves the KV namespace from the
ambient per-request context, raising when there is no context or no binding
under the configured name. -/
def kv (ctx : Option HonoContext) (cfg : Config) : Except String KVMap :=
  match ctx with
  | none => .error "KV namespace is not available in the current context"
  | some c =>
    match c.env cfg.kvName with
    | none =>
      .error ("KV namespace \"" ++ cfg.kvName ++ "\" is not available in the current context")
    | some m => .ok m

/-- `getKeyFromSessionId` (lines 193-195). -/
def getKeyFromSessionId (cfg : Config) (sessionId : String) : String :=
  cfg.prefixStr ++ sessionId

/-- The options object passed to `kv.put`: `expirationTtl` is the configured
default unless the computed epoch-second expiration is truthy, in which case
only the absolute `expiration` is set (`undefined` fields are `none`). -/
structure PutOptions where
  expirationTtl : Option Int
  expiration : Option Int
  deriving DecidableEq

/-- One backend call performed by a store operation. -/
inductive KVOp where
  | put (key : String) (value : SessionData) (opts : PutOptions)
  | del (key : String)
  deriving DecidableEq

/-- `let expiration; if (data._expire) { expiration = Math.floor(new
Date(data._expire).getTime() / 1000) }` — `Math.floor` of real division is
floor division on the epoch milliseconds. -/
def computeExpiration (d : SessionData) : Option Int :=
  match d._expire with
  | none => none
  | some ms => some (Int.fdiv ms 1000)

/-- JavaScript truthiness of the `expiration` variable (`undefined` and `0`
are falsy). -/
def intTruthy : Option Int → Bool
  | none => false
  | some n => n != 0

/-- The options literal `{ expirationTtl: expiration ? undefined :
this.expirationTtl, expiration: expiration }`. -/
def mkPutOptions (defaultTtl : Int) (expiration : Option Int) : PutOptions :=
  { expirationTtl := if intTruthy expiration then none else some defaultTtl
  , expiration := expiration }

/-- `getSessionById` (lines 66-96). Result: `none` models `undefined` (no
identifier), `some none` models `null`, `some (some d)` a found record; the
list collects the backend calls performed. All backend-path errors,
including a missing ambient binding, are caught and resolve to `null`. -/
def getSessionById (ctx : Option HonoContext) (cfg : Config)
    (sessionId : String) (now : String) :
    Option (Option SessionData) × List KVOp :=
  if sessionId = "" then
    (none, [])
  else
    match kv ctx cfg with
    | .error _ => (some none, [])
    | .ok m =>
      let key := getKeyFromSessionId cfg sessionId
      match m key with
      | none => (some none, [])
      | some data0 =>
        let sessionData := { data0 with _accessed := some now }
        if sessionData._delete then
          (some none, [KVOp.del key])
        else
          (some (some sessionData), [])

/-- `createSession` (lines 101-134): requires a non-empty id, sets
`_accessed` to now only when falsy, computes the expiration from `_expire`
and performs one `put`. Backend errors (missing binding) re-raise. -/
def createSession (ctx : Option HonoContext) (cfg : Config)
    (sessionId : String) (initialData : SessionData) (now : String) :
    Except String (List KVOp) :=
  if sessionId = "" then
    .error "Session ID is required"
  else
    match kv ctx cfg with
    | .error e => .error e
    | .ok _ =>
      let key := getKeyFromSessionId cfg sessionId
      let d :=
        if strTruthy initialData._accessed then initialData
        else { initialData with _accessed := some now }
      .ok [KVOp.put key d (mkPutOptions cfg.expirationTtl (computeExpiration d))]

/-- `persistSessionData` (lines 139-176): requires a non-empty id, always
overwrites `_accessed` with now, deletes instead of writing when `_delete`
is set, otherwise performs one `put` with the computed expiration. Backend
errors (missing binding) re-raise. -/
def persistSessionData (ctx : Option HonoContext) (cfg : Config)
    (sessionId : String) (sessionData : SessionData) (now : String) :
    Except String (List KVOp) :=
  if sessionId = "" then
    .error "Session ID is required"
  else
    match kv ctx cfg with
    | .error e => .error e
    | .ok _ =>
      let key := getKeyFromSessionId cfg sessionId
      let d := { sessionData with _accessed := some now }
      if d._delete then
        .ok [KVOp.del key]
      else
        .ok [KVOp.put key d (mkPutOptions cfg.expirationTtl (computeExpiration d))]

/-- `deleteSession` (lines 181-188): requires a non-empty id and deletes the
derived key. Backend errors (missing binding) re-raise. -/
def deleteSession (ctx : Option HonoContext) (cfg : Config)
    (sessionId : String) : Except String (List KVOp) :=
  if sessionId = "" then
    .error "Session ID is required"
  else
    match kv ctx cfg with
    | .error e => .error e
    | .ok _ => .ok [KVOp.del (getKeyFromSessionId cfg sessionId)]

/-- Effect of one backend call on a KV namespace. -/
def applyOp (m : KVMap) : KVOp → KVMap
  | KVOp.put k v _ => fun q => if q = k then some v else m q
  | KVOp.del k => fun q => if q = k then none else m q

/-- Effect of a sequence of backend calls. -/
def applyOps (m : KVMap) (ops : List KVOp) : KVMap :=
  ops.foldl applyOp m

/-- The session record stored by the single `put` of a successful write
operation, if any. -/
def storedDataOf : Except String (List KVOp) → Option SessionData
  | .ok [KVOp.put _ v _] => some v
  | _ => none

/-- The `_accessed` field of the record stored by a successful write. -/
def storedAccessedOf (r : Except String (List KVOp)) : Option (Option String) :=
  (storedDataOf r).map SessionData._accessed

/-- The options received by the single `put` of a successful write. -/
def putOptsOf : Except String (List KVOp) → Option PutOptions
  | .ok [KVOp.put _ _ o] => some o
  | _ => none

end CloudflareKVStore


-- § Sample inputs used by concrete instantiations

/-- A session record marked for deletion. -/
def sampleDeletedRecord : SessionData := ⟨"x", none, true, none⟩

/-- A live session record carrying an `_accessed` timestamp. -/
def samplePersistRecord : SessionData := ⟨"x", none, false, some "A"⟩

/-- A live session record whose expiry lies in the first epoch second. -/
def sampleEpochRecord : SessionData := ⟨"x", some 500, false, some "A"⟩

/-- A KV namespace holding one record under the derived key. -/
def sampleKV : CloudflareKVStore.KVMap :=
  fun k => if k = "session:s" then some sampleDeletedRecord else none

/-- An ambient request context binding `"KV"` to `sampleKV`. -/
def sampleCtx : Option CloudflareKVStore.HonoContext :=
  some ⟨fun n => if n = "KV" then some sampleKV else none⟩

/-- A store configuration using binding `"KV"` and the defaults. -/
def sampleCfg : CloudflareKVStore.Config := ⟨"KV", 86400, "session:"⟩

-- § Generic facts about the chunking loop

theorem utf8Len_nil : utf8Len [] = 0 := rfl

theorem utf8Len_append (a b : List Char) :
    utf8Len (a ++ b) = utf8Len a + utf8Len b := by
  simp [utf8Len]

theorem utf8Len_cons (c : Char) (t : List Char) :
    utf8Len (c :: t) = c.utf8Size + utf8Len t := by
  simp [utf8Len]

theorem utf8Bytes_append (a b : List Char) :
    utf8Bytes (a ++ b) = utf8Bytes a ++ utf8Bytes b := by
  simp [utf8Bytes]

theorem utf8Bytes_flatten (L : List (List Char)) :
    (L.map utf8Bytes).flatten = utf8Bytes L.flatten := by
  induction L with
  | nil => rfl
  | cons a t ih => simp [utf8Bytes_append, ih]

/-- Joining the chunks produced by the loop restores the carried chunk
followed by the remaining input, for every accumulator state. -/
theorem chunkLoop_flatten (maxBytes : Nat) (input : List Char) :
    ∀ current currentBytes,
      (chunkLoop maxBytes input current currentBytes).flatten = current ++ input := by
  induction input with
  | nil =>
    intro current currentBytes
    by_cases h : current = [] <;> simp [chunkLoop, h]
  | cons c rest ih =>
    intro current currentBytes
    by_cases h : maxBytes < currentBytes + c.utf8Size
    · simp [chunkLoop, h, ih]
    · simp [chunkLoop, h, ih]

/-- When everything still fits in one chunk, the loop emits a single chunk
containing the carried characters followed by the whole remaining input. -/
theorem chunkLoop_single (maxBytes : Nat) (input : List Char) :
    ∀ current currentBytes,
      currentBytes + utf8Len input ≤ maxBytes →
      (current ≠ [] ∨ input ≠ []) →
      chunkLoop maxBytes input current currentBytes = [current ++ input] := by
  induction input with
  | nil =>
    intro current currentBytes _ hne
    have hc : current ≠ [] := by
      rcases hne with h | h
      · exact h
      · exact absurd rfl h
    simp [chunkLoop, hc]
  | cons c rest ih =>
    intro current currentBytes hle _
    have hrest : (currentBytes + c.utf8Size) + utf8Len rest ≤ maxBytes := by
      have := hle
      rw [utf8Len_cons] at this
      omega
    have hcond : ¬ maxBytes < currentBytes + c.utf8Size := by omega
    rw [chunkLoop, if_neg hcond,
      ih (current ++ [c]) (currentBytes + c.utf8Size) hrest (Or.inl (by simp))]
    simp

/-- Chunk count for all-single-byte input: with a non-empty carried chunk of
`currentBytes` bytes (`1 ≤ currentBytes ≤ maxBytes`), the loop produces
`⌈(currentBytes + |input|) / maxBytes⌉` chunks. -/
theorem chunkLoop_length_ascii (maxBytes : Nat) (hB : 0 < maxBytes)
    (input : List Char) :
    ∀ current currentBytes,
      (∀ c ∈ input, c.utf8Size = 1) →
      current ≠ [] → 1 ≤ currentBytes → currentBytes ≤ maxBytes →
      (chunkLoop maxBytes input current currentBytes).length =
        (currentBytes + input.length + maxBytes - 1) / maxBytes := by
  induction input with
  | nil =>
    intro current currentBytes _ hne h1 h2
    have hrw : currentBytes + ([] : List Char).length + maxBytes - 1 =
        (currentBytes - 1) + maxBytes := by
      simp; omega
    rw [hrw, Nat.add_div_right _ hB, Nat.div_eq_of_lt (by omega)]
    simp [chunkLoop, hne]
  | cons c rest ih =>
    intro current currentBytes hascii hne h1 h2
    have hc : c.utf8Size = 1 := hascii c (by simp)
    have hrest : ∀ x ∈ rest, x.utf8Size = 1 := fun x hx => hascii x (by simp [hx])
    by_cases hcond : maxBytes < currentBytes + c.utf8Size
    · have hcb : currentBytes = maxBytes := by omega
      rw [chunkLoop, if_pos hcond]
      have ihv := ih [c] c.utf8Size hrest (by simp) (by omega) (by omega)
      rw [hc] at ihv
      simp only [List.length_cons]
      rw [hc, ihv]
      have e1 : 1 + rest.length + maxBytes - 1 = rest.length + maxBytes := by omega
      have e2 : currentBytes + (rest.length + 1) + maxBytes - 1 =
          (rest.length + maxBytes) + maxBytes := by omega
      rw [e1, e2, Nat.add_div_right _ hB, Nat.add_div_right _ hB, Nat.add_div_right _ hB]
    · rw [chunkLoop, if_neg hcond]
      have ihv := ih (current ++ [c]) (currentBytes + c.utf8Size) hrest
        (by simp) (by omega) (by omega)
      rw [ihv, hc]
      have e : currentBytes + 1 + rest.length + maxBytes - 1 =
          currentBytes + (c :: rest).length + maxBytes - 1 := by simp; omega
      rw [e]

/-- Chunk shape invariant: when the carried byte count is the exact byte
length of the carried chunk and stays within the bound, and every remaining
character fits in `maxBytes` on its own, every emitted chunk is non-empty
and within the byte bound. -/
theorem chunkLoop_bounds (maxBytes : Nat) (input : List Char) :
    ∀ current currentBytes,
      currentBytes = utf8Len current →
      currentBytes ≤ maxBytes →
      (∀ c ∈ input, c.utf8Size ≤ maxBytes) →
      ∀ chunk ∈ chunkLoop maxBytes input current currentBytes,
        chunk ≠ [] ∧ utf8Len chunk ≤ maxBytes := by
  induction input with
  | nil =>
    intro current currentBytes hcb hle _ chunk hchunk
    by_cases h : current = []
    · simp [chunkLoop, h] at hchunk
    · simp [chunkLoop, h] at hchunk
      subst hchunk
      exact ⟨h, by omega⟩
  | cons c rest ih =>
    intro current currentBytes hcb hle hfit chunk hchunk
    have hcfit : c.utf8Size ≤ maxBytes := hfit c (by simp)
    have hrest : ∀ x ∈ rest, x.utf8Size ≤ maxBytes := fun x hx => hfit x (by simp [hx])
    by_cases hcond : maxBytes < currentBytes + c.utf8Size
    · rw [chunkLoop, if_pos hcond] at hchunk
      rcases List.mem_cons.mp hchunk with h | h
      · subst h
        have hpos : 0 < currentBytes := by omega
        have hne : chunk ≠ [] := by
          intro hnil
          rw [hnil] at hcb
          simp [utf8Len_nil] at hcb
          omega
        exact ⟨hne, by omega⟩
      · exact ih [c] c.utf8Size (by simp [utf8Len_cons, utf8Len_nil]) hcfit hrest chunk h
    · rw [chunkLoop, if_neg hcond] at hchunk
      exact ih (current ++ [c]) (currentBytes + c.utf8Size)
        (by rw [utf8Len_append, utf8Len_cons, utf8Len_nil, hcb]; omega)
        (by omega) hrest chunk hchunk

-- § Top-level chunking facts

theorem utf8Len_eq_length (l : List Char) (h : ∀ c ∈ l, c.utf8Size = 1) :
    utf8Len l = l.length := by
  induction l with
  | nil => rfl
  | cons c t ih =>
    rw [utf8Len_cons, h c (by simp), ih (fun x hx => h x (by simp [hx])),
      List.length_cons]
    omega

theorem chunk_empty_eq (maxBytes : Nat) : chunkStringByBytes "" maxBytes = [] := rfl

theorem chunk_single_of_fits (s : String) (maxBytes : Nat)
    (hne : s.data ≠ []) (hle : utf8Len s.data ≤ maxBytes) :
    chunkStringByBytes s maxBytes = [s] := by
  rw [chunkStringByBytes,
    chunkLoop_single maxBytes s.data [] 0 (by omega) (Or.inr hne)]
  simp

theorem ascii_chunk_count (s : String) (maxBytes : Nat) (hB : 1 ≤ maxBytes)
    (hne : s.data ≠ []) (hascii : ∀ c ∈ s.data, c.utf8Size = 1) :
    (chunkStringByBytes s maxBytes).length = (s.data.length + maxBytes - 1) / maxBytes := by
  obtain ⟨c, rest, hsd⟩ : ∃ c rest, s.data = c :: rest := by
    cases h : s.data with
    | nil => exact absurd h hne
    | cons c rest => exact ⟨c, rest, rfl⟩
  have hc1 : c.utf8Size = 1 := hascii c (by rw [hsd]; simp)
  have hrest : ∀ x ∈ rest, x.utf8Size = 1 := fun x hx => hascii x (by rw [hsd]; simp [hx])
  have hcond : ¬ maxBytes < 0 + c.utf8Size := by rw [hc1]; omega
  rw [chunkStringByBytes, List.length_map, hsd, chunkLoop, if_neg hcond,
    chunkLoop_length_ascii maxBytes (by omega) rest ([] ++ [c]) (0 + c.utf8Size)
      hrest (by simp) (by rw [hc1]) (by rw [hc1]; omega)]
  rw [hc1]
  simp only [List.length_cons]
  congr 1
  omega

theorem chunk_len_40001 :
    (chunkStringByBytes (String.mk (List.replicate 40001 'a')) 4000).length = 11 := by
  have hascii : ∀ c ∈ (String.mk (List.replicate 40001 'a')).data, c.utf8Size = 1 := by
    intro c hc
    have hca : c = 'a' := List.eq_of_mem_replicate (hc : c ∈ List.replicate 40001 'a')
    rw [hca]
    decide
  have hne : (String.mk (List.replicate 40001 'a')).data ≠ [] := by
    intro h
    have hlen := congrArg List.length (h : List.replicate 40001 'a' = [])
    rw [List.length_replicate, List.length_nil] at hlen
    exact absurd hlen (by decide)
  rw [ascii_chunk_count _ 4000 (by omega) hne hascii]
  have hql : (String.mk (List.replicate 40001 'a')).data.length = 40001 := by
    rw [show (String.mk (List.replicate 40001 'a')).data = List.replicate 40001 'a' from rfl,
      List.length_replicate]
  rw [hql]

-- § Claim C1

/-- C1: for every input string and every `maxBytes ≥ 1`, concatenating in
order the chunks returned by `chunkStringByBytes` yields exactly the input —
both as the sequence of Unicode code points and as the UTF-8 byte sequence,
so each code point's full UTF-8 encoding lies within a single chunk. -/
theorem c1_split_concat_exact (s : String) (maxBytes : Nat) (hB : 1 ≤ maxBytes) :
    ((chunkStringByBytes s maxBytes).map String.data).flatten = s.data ∧
    (((chunkStringByBytes s maxBytes).map String.data).map utf8Bytes).flatten
      = utf8Bytes s.data := by
  have hdata : (chunkStringByBytes s maxBytes).map String.data
      = chunkLoop maxBytes s.data [] 0 := by
    rw [chunkStringByBytes, List.map_map]
    have hid : (String.data ∘ fun l => String.mk l) = id := rfl
    rw [hid, List.map_id]
  constructor
  · rw [hdata, chunkLoop_flatten]
    simp
  · rw [hdata, utf8Bytes_flatten, chunkLoop_flatten]
    simp

theorem c1_split_concat_exact_witness :
    (1 ≤ 3) ∧
    (((chunkStringByBytes "héllo" 3).map String.data).flatten = "héllo".data ∧
     (((chunkStringByBytes "héllo" 3).map String.data).map utf8Bytes).flatten
       = utf8Bytes "héllo".data) :=
  ⟨by decide, c1_split_concat_exact "héllo" 3 (by decide)⟩

-- § Claim C2

/-- C2: the empty string splits into no chunks; a non-empty input whose total
UTF-8 byte length fits in `maxBytes` gives exactly one chunk equal to the
input; a non-empty all-single-byte input of byte length `L` gives exactly
`⌈L / maxBytes⌉` chunks. -/
theorem c2_edge_cases_and_ascii_count (maxBytes : Nat) (hB : 1 ≤ maxBytes) :
    chunkStringByBytes "" maxBytes = [] ∧
    (∀ s : String, s.data ≠ [] → utf8Len s.data ≤ maxBytes →
      chunkStringByBytes s maxBytes = [s]) ∧
    (∀ s : String, s.data ≠ [] → (∀ c ∈ s.data, c.utf8Size = 1) →
      (chunkStringByBytes s maxBytes).length
        = (utf8Len s.data + maxBytes - 1) / maxBytes) := by
  refine ⟨chunk_empty_eq maxBytes,
    fun s hne hle => chunk_single_of_fits s maxBytes hne hle, ?_⟩
  intro s hne hascii
  rw [ascii_chunk_count s maxBytes hB hne hascii, utf8Len_eq_length s.data hascii]

theorem c2_edge_cases_and_ascii_count_witness :
    (1 ≤ 2) ∧
    (chunkStringByBytes "" 2 = [] ∧
     (∀ s : String, s.data ≠ [] → utf8Len s.data ≤ 2 →
       chunkStringByBytes s 2 = [s]) ∧
     (∀ s : String, s.data ≠ [] → (∀ c ∈ s.data, c.utf8Size = 1) →
       (chunkStringByBytes s 2).length = (utf8Len s.data + 2 - 1) / 2)) :=
  ⟨by decide, c2_edge_cases_and_ascii_count 2 (by decide)⟩

-- § Claim C10

/-- C10: when every code point of the input fits in `maxBytes` bytes on its
own, every chunk emitted by `chunkStringByBytes` is non-empty and its UTF-8
byte length is at most `maxBytes`. -/
theorem c10_chunks_nonempty_and_bounded (s : String) (maxBytes : Nat)
    (hB : 1 ≤ maxBytes) (hfit : ∀ c ∈ s.data, c.utf8Size ≤ maxBytes) :
    ∀ chunk ∈ chunkStringByBytes s maxBytes,
      chunk ≠ "" ∧ utf8Len chunk.data ≤ maxBytes := by
  intro chunk hchunk
  obtain ⟨l, hl, hmk⟩ := List.mem_map.mp hchunk
  have hb := chunkLoop_bounds maxBytes s.data [] 0 rfl (Nat.zero_le _) hfit l hl
  subst hmk
  refine ⟨fun he => hb.1 ?_, hb.2⟩
  exact (congrArg String.data he : l = [])

theorem c10_chunks_nonempty_and_bounded_witness :
    ((1 ≤ 2) ∧ (∀ c ∈ ("héllo").data, c.utf8Size ≤ 2)) ∧
    (∀ chunk ∈ chunkStringByBytes "héllo" 2,
      chunk ≠ "" ∧ utf8Len chunk.data ≤ 2) :=
  ⟨⟨by decide, by decide⟩,
    c10_chunks_nonempty_and_bounded "héllo" 2 (by decide) (by decide)⟩

-- § Claim C3

/-- C3: when the payload splits into more than 10 chunks of 4000 bytes,
`CookieStore.persistSessionData` raises the oversized-session error and the
only `setCookie` calls performed are the eleven cleanup writes: the ten
indexed cookies cleared with `maxAge: 0` and the count cookie cleared. -/
theorem c3_oversized_error_only_cleanup (cfg : CookieStore.Config) (payload : String)
    (hbig : (chunkStringByBytes payload 4000).length > 10) :
    (CookieStore.persistSessionData cfg payload).2
        = some "Session too large for cookie storage" ∧
    (CookieStore.persistSessionData cfg payload).1.length = 11 ∧
    (∀ i : Nat, i < 10 →
      (CookieStore.persistSessionData cfg payload).1.getD i ⟨"", "", none, none⟩
        = ⟨getCookieName cfg.sessionCookieName i, "",
            { cfg.cookieOptions with maxAge := some 0 }⟩) ∧
    (CookieStore.persistSessionData cfg payload).1.getD 10 ⟨"", "", none, none⟩
      = ⟨cfg.sessionCookieName ++ "_count", "", cfg.cookieOptions⟩ := by
  have hne1 : ¬ (chunkStringByBytes payload 4000).length = 1 := by omega
  have hpersist : CookieStore.persistSessionData cfg payload =
      (((List.range 10).map (fun i =>
          (⟨getCookieName cfg.sessionCookieName i, "",
            { cfg.cookieOptions with maxAge := some 0 }⟩ : CookieWrite)))
        ++ [⟨cfg.sessionCookieName ++ "_count", "", cfg.cookieOptions⟩],
       some "Session too large for cookie storage") := by
    simp only [CookieStore.persistSessionData]
    rw [if_neg hne1, if_pos hbig]
  rw [hpersist]
  refine ⟨rfl, by simp, ?_, rfl⟩
  intro i hi
  interval_cases i <;> rfl

theorem c3_oversized_error_only_cleanup_witness :
    ((chunkStringByBytes (String.mk (List.replicate 40001 'a')) 4000).length > 10) ∧
    ((CookieStore.persistSessionData ⟨none, ⟨none, none⟩, "session"⟩
        (String.mk (List.replicate 40001 'a'))).2
        = some "Session too large for cookie storage" ∧
     (CookieStore.persistSessionData ⟨none, ⟨none, none⟩, "session"⟩
        (String.mk (List.replicate 40001 'a'))).1.length = 11 ∧
     (∀ i : Nat, i < 10 →
       (CookieStore.persistSessionData ⟨none, ⟨none, none⟩, "session"⟩
          (String.mk (List.replicate 40001 'a'))).1.getD i ⟨"", "", none, none⟩
         = ⟨getCookieName "session" i, "", ⟨some 0, none⟩⟩) ∧
     (CookieStore.persistSessionData ⟨none, ⟨none, none⟩, "session"⟩
        (String.mk (List.replicate 40001 'a'))).1.getD 10 ⟨"", "", none, none⟩
       = ⟨"session" ++ "_count", "", ⟨none, none⟩⟩) := by
  have hbig : (chunkStringByBytes (String.mk (List.replicate 40001 'a')) 4000).length > 10 := by
    rw [chunk_len_40001]
    omega
  exact ⟨hbig, c3_oversized_error_only_cleanup ⟨none, ⟨none, none⟩, "session"⟩
    (String.mk (List.replicate 40001 'a')) hbig⟩

-- § Claim C9

/-- C9 counterexample: with configured cookie options carrying no `maxAge`,
the eleventh deletion write — the count cookie — is set with the plain
options and so does not carry the `maxAge 0` immediate-expiry clearing
semantics the claim asserts for all eleven writes. -/
theorem c9_counterexample :
    (CookieStore.deleteSession ⟨none, ⟨none, some "/"⟩, "session"⟩).getD 10
        ⟨"", "", none, none⟩
      = ⟨"session_count", "", ⟨none, some "/"⟩⟩ ∧
    ((CookieStore.deleteSession ⟨none, ⟨none, some "/"⟩, "session"⟩).getD 10
        ⟨"", "", none, none⟩).opts.maxAge ≠ some 0 := by
  constructor
  · decide
  · decide

/-- C9 (amended): `deleteSession` unconditionally performs exactly eleven
writes regardless of how many chunk cookies were in use: the ten indexed
cookies are cleared to the empty value with `maxAge 0` (other configured
options preserved), and the count cookie is set to the empty value with the
plain configured cookie options, without the `maxAge 0` override. -/
theorem c9_delete_writes (cfg : CookieStore.Config) :
    (CookieStore.deleteSession cfg).length = 11 ∧
    (∀ i : Nat, i < 10 →
      (CookieStore.deleteSession cfg).getD i ⟨"", "", none, none⟩
        = ⟨getCookieName cfg.sessionCookieName i, "",
            { cfg.cookieOptions with maxAge := some 0 }⟩) ∧
    (CookieStore.deleteSession cfg).getD 10 ⟨"", "", none, none⟩
      = ⟨cfg.sessionCookieName ++ "_count", "", cfg.cookieOptions⟩ := by
  refine ⟨by simp [CookieStore.deleteSession], ?_, rfl⟩
  intro i hi
  interval_cases i <;> rfl

theorem c9_delete_writes_witness :
    (3 < 10) ∧
    (CookieStore.deleteSession ⟨none, ⟨none, none⟩, "session"⟩).getD 3
        ⟨"", "", none, none⟩
      = ⟨getCookieName "session" 3, "", ⟨some 0, none⟩⟩ :=
  ⟨by decide, (c9_delete_writes ⟨none, ⟨none, none⟩, "session"⟩).2.1 3 (by decide)⟩

-- § Claim C4

/-- C5 counterexample: with no ambient context the binding is missing, yet
`getSessionById` with a non-empty id does not raise — the error is caught
inside the read path and the call resolves to the data result `null`
(`some none`), performing no backend calls. -/
theorem c5_counterexample :
    CloudflareKVStore.kv none ⟨"KV", 86400, "session:"⟩
      = .error "KV namespace is not available in the current context" ∧
    CloudflareKVStore.getSessionById none ⟨"KV", 86400, "session:"⟩ "abc" "T"
      = (some none, []) := by
  constructor
  · rfl
  · rfl

/-- C5 (amended): when the ambient per-request backend binding is missing,
`createSession`, `persistSessionData` and `deleteSession` (with non-empty
id) re-raise the missing-binding error to the caller, while `getSessionById`
catches it and resolves to the data result `null`. -/
theorem c5_missing_binding (ctx : Option CloudflareKVStore.HonoContext)
    (cfg : CloudflareKVStore.Config) (sid : String) (d : SessionData)
    (now e : String)
    (hba : CloudflareKVStore.kv ctx cfg = .error e) (hsid : sid ≠ "") :
    CloudflareKVStore.createSession ctx cfg sid d now = .error e ∧
    CloudflareKVStore.persistSessionData ctx cfg sid d now = .error e ∧
    CloudflareKVStore.deleteSession ctx cfg sid = .error e ∧
    CloudflareKVStore.getSessionById ctx cfg sid now = (some none, []) := by
  refine ⟨?_, ?_, ?_, ?_⟩
  · simp [CloudflareKVStore.createSession, hba, hsid]
  · simp [CloudflareKVStore.persistSessionData, hba, hsid]
  · simp [CloudflareKVStore.deleteSession, hba, hsid]
  · simp [CloudflareKVStore.getSessionById, hba, hsid]

theorem c5_missing_binding_witness :
    (CloudflareKVStore.kv none ⟨"KV", 86400, "session:"⟩
        = .error "KV namespace is not available in the current context" ∧
      ("abc" : String) ≠ "") ∧
    (CloudflareKVStore.createSession none ⟨"KV", 86400, "session:"⟩ "abc"
        samplePersistRecord "T"
        = .error "KV namespace is not available in the current context" ∧
      CloudflareKVStore.persistSessionData none ⟨"KV", 86400, "session:"⟩ "abc"
        samplePersistRecord "T"
        = .error "KV namespace is not available in the current context" ∧
      CloudflareKVStore.deleteSession none ⟨"KV", 86400, "session:"⟩ "abc"
        = .error "KV namespace is not available in the current context" ∧
      CloudflareKVStore.getSessionById none ⟨"KV", 86400, "session:"⟩ "abc" "T"
        = (some none, [])) :=
  ⟨⟨rfl, by decide⟩,
    c5_missing_binding none ⟨"KV", 86400, "session:"⟩ "abc" samplePersistRecord
      "T" "KV namespace is not available in the current context" rfl (by decide)⟩

-- § Claim C6

/-- C6: deletion is terminal for the keyed backend. With the binding
present: `persistSessionData` on a record with `_delete = true` performs
only a delete of the derived key (after which the backend no longer holds
the record), and `getSessionById` on a stored record with `_delete = true`
deletes the underlying record and returns `null`. -/
theorem c6_delete_terminal (ctx : Option CloudflareKVStore.HonoContext)
    (cfg : CloudflareKVStore.Config) (m : CloudflareKVStore.KVMap)
    (sid : String) (d : SessionData) (now : String)
    (hkv : CloudflareKVStore.kv ctx cfg = .ok m) (hsid : sid ≠ "")
    (hdel : d._delete = true) :
    (CloudflareKVStore.persistSessionData ctx cfg sid d now
        = .ok [CloudflareKVStore.KVOp.del (CloudflareKVStore.getKeyFromSessionId cfg sid)] ∧
      CloudflareKVStore.applyOps m
          [CloudflareKVStore.KVOp.del (CloudflareKVStore.getKeyFromSessionId cfg sid)]
          (CloudflareKVStore.getKeyFromSessionId cfg sid) = none) ∧
    (m (CloudflareKVStore.getKeyFromSessionId cfg sid) = some d →
      CloudflareKVStore.getSessionById ctx cfg sid now
        = (some none,
            [CloudflareKVStore.KVOp.del (CloudflareKVStore.getKeyFromSessionId cfg sid)])) := by
  refine ⟨⟨?_, ?_⟩, ?_⟩
  · simp [CloudflareKVStore.persistSessionData, hkv, hsid, hdel]
  · simp [CloudflareKVStore.applyOps, CloudflareKVStore.applyOp]
  · intro hm
    simp [CloudflareKVStore.getSessionById, hkv, hsid, hm, hdel]

theorem c6_delete_terminal_witness :
    (CloudflareKVStore.kv sampleCtx sampleCfg = .ok sampleKV ∧
      ("s" : String) ≠ "" ∧ sampleDeletedRecord._delete = true ∧
      sampleKV (CloudflareKVStore.getKeyFromSessionId sampleCfg "s")
        = some sampleDeletedRecord) ∧
    ((CloudflareKVStore.persistSessionData sampleCtx sampleCfg "s" sampleDeletedRecord "T"
        = .ok [CloudflareKVStore.KVOp.del (CloudflareKVStore.getKeyFromSessionId sampleCfg "s")] ∧
      CloudflareKVStore.applyOps sampleKV
          [CloudflareKVStore.KVOp.del (CloudflareKVStore.getKeyFromSessionId sampleCfg "s")]
          (CloudflareKVStore.getKeyFromSessionId sampleCfg "s") = none) ∧
     CloudflareKVStore.getSessionById sampleCtx sampleCfg "s" "T"
        = (some none,
            [CloudflareKVStore.KVOp.del (CloudflareKVStore.getKeyFromSessionId sampleCfg "s")])) := by
  have h := c6_delete_terminal sampleCtx sampleCfg sampleKV "s" sampleDeletedRecord "T"
    rfl (by decide) rfl
  exact ⟨⟨rfl, by decide, rfl, rfl⟩, h.1, h.2 rfl⟩

-- § Claim C7

/-- C7 counterexample: a set expiry in the first epoch second (epoch
millisecond 500, i.e. `1970-01-01T00:00:00.500Z`) floors to epoch second 0,
which is falsy in JavaScript, so the backend put receives the configured
default TTL even though `_expire` is set — contradicting the claim that a
set `_expire` always yields absolute expiration and no default TTL. -/
theorem c7_counterexample :
    sampleEpochRecord._expire = some 500 ∧
    Int.fdiv 500 1000 = 0 ∧
    CloudflareKVStore.putOptsOf
        (CloudflareKVStore.createSession sampleCtx sampleCfg "s" sampleEpochRecord "T")
      = some ⟨some 86400, some 0⟩ := by
  refine ⟨rfl, by decide, rfl⟩

/-- C7 (amended): for keyed-backend writes with non-empty id and the binding
present (and `_delete` false in the persist case): when `_expire` is unset
the put receives the configured default TTL and no absolute expiration; when
`_expire` is set and its floored epoch-second value is non-zero the put
receives that absolute expiration and no TTL; when `_expire` is set but
floors to epoch second 0 (a falsy value) the put receives the default TTL
together with expiration 0. The constructor default TTL is 86400 seconds
when not configured. -/
theorem c7_expiry_translation (ctx : Option CloudflareKVStore.HonoContext)
    (cfg : CloudflareKVStore.Config) (m : CloudflareKVStore.KVMap)
    (sid : String) (d : SessionData) (now : String)
    (hkv : CloudflareKVStore.kv ctx cfg = .ok m) (hsid : sid ≠ "") :
    (d._expire = none →
      CloudflareKVStore.putOptsOf (CloudflareKVStore.createSession ctx cfg sid d now)
        = some ⟨some cfg.expirationTtl, none⟩ ∧
      (d._delete = false →
        CloudflareKVStore.putOptsOf (CloudflareKVStore.persistSessionData ctx cfg sid d now)
          = some ⟨some cfg.expirationTtl, none⟩)) ∧
    (∀ ms : Int, d._expire = some ms → Int.fdiv ms 1000 ≠ 0 →
      CloudflareKVStore.putOptsOf (CloudflareKVStore.createSession ctx cfg sid d now)
        = some ⟨none, some (Int.fdiv ms 1000)⟩ ∧
      (d._delete = false →
        CloudflareKVStore.putOptsOf (CloudflareKVStore.persistSessionData ctx cfg sid d now)
          = some ⟨none, some (Int.fdiv ms 1000)⟩)) ∧
    (∀ ms : Int, d._expire = some ms → Int.fdiv ms 1000 = 0 →
      CloudflareKVStore.putOptsOf (CloudflareKVStore.createSession ctx cfg sid d now)
        = some ⟨some cfg.expirationTtl, some 0⟩ ∧
      (d._delete = false →
        CloudflareKVStore.putOptsOf (CloudflareKVStore.persistSessionData ctx cfg sid d now)
          = some ⟨some cfg.expirationTtl, some 0⟩)) ∧
    (∀ kvn : String, ∀ p : Option String,
      (CloudflareKVStore.mkConfig kvn none p).expirationTtl = 86400) := by
  refine ⟨?_, ?_, ?_, ?_⟩
  · intro hexp
    constructor
    · by_cases hacc : strTruthy d._accessed <;>
        simp [CloudflareKVStore.createSession, CloudflareKVStore.putOptsOf,
          CloudflareKVStore.computeExpiration, CloudflareKVStore.mkPutOptions,
          CloudflareKVStore.intTruthy, hkv, hsid, hexp, hacc]
    · intro hdel
      simp [CloudflareKVStore.persistSessionData, CloudflareKVStore.putOptsOf,
        CloudflareKVStore.computeExpiration, CloudflareKVStore.mkPutOptions,
        CloudflareKVStore.intTruthy, hkv, hsid, hexp, hdel]
  · intro ms hexp hnz
    constructor
    · by_cases hacc : strTruthy d._accessed <;>
        simp [CloudflareKVStore.createSession, CloudflareKVStore.putOptsOf,
          CloudflareKVStore.computeExpiration, CloudflareKVStore.mkPutOptions,
          CloudflareKVStore.intTruthy, hkv, hsid, hexp, hacc, hnz]
    · intro hdel
      simp [CloudflareKVStore.persistSessionData, CloudflareKVStore.putOptsOf,
        CloudflareKVStore.computeExpiration, CloudflareKVStore.mkPutOptions,
        CloudflareKVStore.intTruthy, hkv, hsid, hexp, hdel, hnz]
  · intro ms hexp hz
    constructor
    · by_cases hacc : strTruthy d._accessed <;>
        simp [CloudflareKVStore.createSession, CloudflareKVStore.putOptsOf,
          CloudflareKVStore.computeExpiration, CloudflareKVStore.mkPutOptions,
          CloudflareKVStore.intTruthy, hkv, hsid, hexp, hacc, hz]
    · intro hdel
      simp [CloudflareKVStore.persistSessionData, CloudflareKVStore.putOptsOf,
        CloudflareKVStore.computeExpiration, CloudflareKVStore.mkPutOptions,
        CloudflareKVStore.intTruthy, hkv, hsid, hexp, hdel, hz]
  · intro kvn p
    rfl

theorem c7_expiry_translation_witness :
    (CloudflareKVStore.kv sampleCtx sampleCfg = .ok sampleKV ∧
      ("s" : String) ≠ "" ∧ samplePersistRecord._expire = none ∧
      samplePersistRecord._delete = false) ∧
    (CloudflareKVStore.putOptsOf
        (CloudflareKVStore.createSession sampleCtx sampleCfg "s" samplePersistRecord "T")
      = some ⟨some sampleCfg.expirationTtl, none⟩ ∧
     CloudflareKVStore.putOptsOf
        (CloudflareKVStore.persistSessionData sampleCtx sampleCfg "s" samplePersistRecord "T")
      = some ⟨some sampleCfg.expirationTtl, none⟩) := by
  have h := c7_expiry_translation sampleCtx sampleCfg sampleKV "s" samplePersistRecord "T"
    rfl (by decide)
  have h1 := h.1 rfl
  exact ⟨⟨rfl, by decide, rfl, rfl⟩, h1.1, h1.2 rfl⟩

-- § Claim C8

/-- C8 counterexample: `persistSessionData` does not preserve a supplied
non-null `_accessed` timestamp — the stored record carries the current time
`"B"` instead of the supplied `"A"`. -/
theorem c8_counterexample :
    samplePersistRecord._accessed = some "A" ∧
    CloudflareKVStore.storedAccessedOf
        (CloudflareKVStore.persistSessionData sampleCtx sampleCfg "s" samplePersistRecord "B")
      ≠ some (some "A") ∧
    CloudflareKVStore.storedAccessedOf
        (CloudflareKVStore.persistSessionData sampleCtx sampleCfg "s" samplePersistRecord "B")
      = some (some "B") := by
  refine ⟨rfl, by decide, rfl⟩

/-- C8 (amended): with non-empty id and the binding present, `createSession`
sets `_accessed` to the current time only when it is absent and preserves a
supplied non-empty `_accessed`; `persistSessionData`, by contrast, always
overwrites `_accessed` with the current time in the stored record. -/
theorem c8_accessed_handling (ctx : Option CloudflareKVStore.HonoContext)
    (cfg : CloudflareKVStore.Config) (m : CloudflareKVStore.KVMap)
    (sid : String) (d : SessionData) (now : String)
    (hkv : CloudflareKVStore.kv ctx cfg = .ok m) (hsid : sid ≠ "") :
    (d._accessed = none →
      CloudflareKVStore.storedAccessedOf
          (CloudflareKVStore.createSession ctx cfg sid d now)
        = some (some now)) ∧
    (∀ a : String, d._accessed = some a → a ≠ "" →
      CloudflareKVStore.storedAccessedOf
          (CloudflareKVStore.createSession ctx cfg sid d now)
        = some (some a)) ∧
    (d._delete = false →
      CloudflareKVStore.storedAccessedOf
          (CloudflareKVStore.persistSessionData ctx cfg sid d now)
        = some (some now)) := by
  refine ⟨?_, ?_, ?_⟩
  · intro hacc
    simp [CloudflareKVStore.createSession, CloudflareKVStore.storedAccessedOf,
      CloudflareKVStore.storedDataOf, strTruthy, hkv, hsid, hacc]
  · intro a hacc hane
    simp [CloudflareKVStore.createSession, CloudflareKVStore.storedAccessedOf,
      CloudflareKVStore.storedDataOf, strTruthy, hkv, hsid, hacc, hane]
  · intro hdel
    simp [CloudflareKVStore.persistSessionData, CloudflareKVStore.storedAccessedOf,
      CloudflareKVStore.storedDataOf, hkv, hsid, hdel]

theorem c8_accessed_handling_witness :
    (CloudflareKVStore.kv sampleCtx sampleCfg = .ok sampleKV ∧
      ("s" : String) ≠ "" ∧ samplePersistRecord._accessed = some "A" ∧
      ("A" : String) ≠ "" ∧ samplePersistRecord._delete = false) ∧
    (CloudflareKVStore.storedAccessedOf
        (CloudflareKVStore.createSession sampleCtx sampleCfg "s" samplePersistRecord "B")
      = some (some "A") ∧
     CloudflareKVStore.storedAccessedOf
        (CloudflareKVStore.persistSessionData sampleCtx sampleCfg "s" samplePersistRecord "B")
      = some (some "B")) := by
  have h := c8_accessed_handling sampleCtx sampleCfg sampleKV "s" samplePersistRecord "B"
    rfl (by decide)
  exact ⟨⟨rfl, by decide, rfl, by decide, rfl⟩,
    h.2.1 "A" rfl (by decide), h.2.2 rfl⟩
